import Mathlib

/-!
Shallow embedding of the crossed-paths matching subsystem of the
parishus-table-talk repository.

The query/presentation adapter is implemented twice in the source, as the
`fetchCrossedPaths` function of two parallel "Crossed Paths" pages:
  * `src/pages/CrossedPaths.tsx` (embedded below with suffix `1`), which
    filters the `crossed_paths` summary table against `profile.id`;
  * the second crossed-paths page (embedded with suffix `2`), which filters
    against `profile.user_id` and additionally derives `location_details`.
Both pages then look up `crossed_paths_log` rows under a canonical pair key
built from `profile.user_id` and the other user's `user_id`.

The database is modelled as plain lists of rows.  JavaScript null is
`Option.none`; the JS `||` default on numbers treats `0` and `null` as falsy,
which `jsOrNat` reproduces.  PostgREST embedded joins
(`profiles!crossed_paths_user1_id_fkey(...)`) resolve a summary row's
`user1_id`/`user2_id` against `profiles.user_id`, per the foreign keys
declared in migration 20250725175227.

The aggregator (`recordCrossing`) and the expiry sweep live in the
`track-restaurant-visit` edge function, which is not part of the source
tree; they are modelled from the spec where needed and marked as such.
-/

namespace ParisHus

/-- A row of the `profiles` table, restricted to the fields the
crossed-paths logic reads (`id`, `user_id`; `first_name` stands in for the
display-only columns). -/
structure Profile where
  id : String
  user_id : String
  first_name : String
deriving DecidableEq, Repr

/-- A row of the `crossed_paths` summary table. -/
structure SummaryRow where
  id : Nat
  user1_id : String
  user2_id : String
  matched_at : Nat
  is_active : Bool
deriving DecidableEq, Repr

/-- A row of the `crossed_paths_log` table as read by the pages
(`select('restaurant_name, cross_count')`); both columns are nullable.
`last_crossed_at` is carried for the expiry model. -/
structure LogRow where
  user_a_id : String
  user_b_id : String
  restaurant_name : Option String
  cross_count : Option Nat
  last_crossed_at : Nat
deriving DecidableEq, Repr

/-- JS `x || d` on a nullable non-negative number: `null` and `0` are falsy. -/
def jsOrNat (x : Option Nat) (d : Nat) : Nat :=
  match x with
  | none => d
  | some 0 => d
  | some n => n

/-- `logData?.map(log => log.restaurant_name).filter(Boolean) || []`:
the truthy (non-null, non-empty) restaurant names of the log rows of the
pair, in row order. -/
def locationsOf (logData : List LogRow) : List String :=
  (logData.map (fun l => l.restaurant_name)).filterMap
    (fun r => match r with
      | none => none
      | some s => if s = "" then none else some s)

/-- `[...new Set(xs)]`: JS Set insertion order keeps the first occurrence of
each element. -/
def jsSetDedup (xs : List String) : List String :=
  xs.foldl (fun acc x => if x ∈ acc then acc else acc ++ [x]) []

/-- `logData?.reduce((sum, log) => sum + (log.cross_count || 1), 0) || 1`. -/
def totalCrossesOf (logData : Option (List LogRow)) : Nat :=
  match logData with
  | none => 1
  | some l =>
      let s := l.foldl (fun acc log => acc + jsOrNat log.cross_count 1) 0
      if s = 0 then 1 else s

/-- One entry of the second page's `location_details` aggregation. -/
structure LocationDetail where
  name : String
  cross_count : Nat
deriving DecidableEq, Repr

/-- One step of the second page's `location_details` reduce: skip falsy
names; add to the existing entry for the name, else push a new entry.  The
JS code mutates the entry `find` returns; names in the accumulator are
unique, so updating every matching entry is the same. -/
def locationDetailsStep (acc : List LocationDetail) (log : LogRow) :
    List LocationDetail :=
  match log.restaurant_name with
  | none => acc
  | some name =>
      if name = "" then acc
      else if acc.any (fun d => d.name == name) then
        acc.map (fun d =>
          if d.name == name then
            { d with cross_count := d.cross_count + jsOrNat log.cross_count 1 }
          else d)
      else acc ++ [{ name := name, cross_count := jsOrNat log.cross_count 1 }]

/-- The second page's `location_details` reduce over the pair's log rows. -/
def locationDetailsOf (logData : List LogRow) : List LocationDetail :=
  logData.foldl locationDetailsStep []

/-- Lexicographic comparison of character lists by code point, the order JS
`<` uses on the id strings. -/
def lexLt : List Char → List Char → Bool
  | [], [] => false
  | [], _ :: _ => true
  | _ :: _, [] => false
  | x :: xs, y :: ys =>
      if x.toNat < y.toNat then true
      else if y.toNat < x.toNat then false
      else lexLt xs ys

/-- JS `<` on strings. -/
def strLt (a b : String) : Bool := lexLt a.data b.data

/-- Canonical pair key, as computed inline by both pages:
`userAId = a < b ? a : b; userBId = a < b ? b : a`. -/
def canonPair (a b : String) : String × String :=
  if strLt a b then (a, b) else (b, a)

/-- PostgREST embedded join: resolve a `crossed_paths` user column against
`profiles.user_id` (foreign keys of migration 20250725175227). -/
def lookupProfile (profiles : List Profile) (uid : String) : Option Profile :=
  profiles.find? (fun p => p.user_id == uid)

/-- The rows of `crossed_paths_log` the pages query for a canonical pair:
`.eq('user_a_id', userAId).eq('user_b_id', userBId)`. -/
def logRowsFor (log : List LogRow) (a b : String) : List LogRow :=
  log.filter (fun l => l.user_a_id == a && l.user_b_id == b)

/-- Stable insertion into a list already sorted by `matched_at` descending. -/
def insertDesc (r : SummaryRow) : List SummaryRow → List SummaryRow
  | [] => [r]
  | x :: xs => if r.matched_at ≤ x.matched_at then x :: insertDesc r xs
               else r :: x :: xs

/-- `.order('matched_at', { ascending: false })`: sort by `matched_at`
descending. -/
def sortByMatchedAtDesc (rows : List SummaryRow) : List SummaryRow :=
  rows.foldr insertDesc []

/-- The summary query of either page, for a filter id `uid`:
`.or(user1_id.eq.uid,user2_id.eq.uid).eq('is_active', true)` then the
descending `matched_at` order. -/
def selectSummaries (table : List SummaryRow) (uid : String) :
    List SummaryRow :=
  sortByMatchedAtDesc
    (table.filter (fun r =>
      (r.user1_id == uid || r.user2_id == uid) && r.is_active))

/-- An enriched crossed path as produced by the first page. -/
structure EnrichedPath where
  summary : SummaryRow
  matched_user : Profile
  total_crosses : Nat
  locations : List String
deriving DecidableEq, Repr

/-- An enriched crossed path as produced by the second page, which adds
`location_details`. -/
structure EnrichedPath2 where
  summary : SummaryRow
  matched_user : Profile
  total_crosses : Nat
  locations : List String
  location_details : List LocationDetail
deriving DecidableEq, Repr

/-- `Promise.all` over a fallible map: any failure rejects the whole batch
(caught by the page's `catch`, which yields `[]`). -/
def mapOption (f : α → Option β) : List α → Option (List β)
  | [] => some []
  | a :: l =>
      match f a, mapOption f l with
      | some b, some bs => some (b :: bs)
      | _, _ => none

/-- Enrichment of one summary row on the first page
(`src/pages/CrossedPaths.tsx`): the joined profiles are resolved, the other
user is picked by comparing `user1_id` with `profile.id`, the log is queried
under the canonical key built from `profile.user_id`, and the aggregates are
derived.  `none` models the exception raised when a joined profile is
missing. -/
def enrichRow1 (profiles : List Profile) (log : List LogRow) (p : Profile)
    (row : SummaryRow) : Option EnrichedPath := do
  let user1 ← lookupProfile profiles row.user1_id
  let user2 ← lookupProfile profiles row.user2_id
  let otherUserId := if row.user1_id = p.id then user2.user_id else user1.user_id
  let userAId := if strLt p.user_id otherUserId then p.user_id else otherUserId
  let userBId := if strLt p.user_id otherUserId then otherUserId else p.user_id
  let logData := logRowsFor log userAId userBId
  some { summary := row
         matched_user := if row.user1_id = p.id then user2 else user1
         total_crosses := totalCrossesOf (some logData)
         locations := jsSetDedup (locationsOf logData) }

/-- Enrichment of one summary row on the second page, which compares
`user1_id` with `profile.user_id` and also builds `location_details`. -/
def enrichRow2 (profiles : List Profile) (log : List LogRow) (p : Profile)
    (row : SummaryRow) : Option EnrichedPath2 := do
  let user1 ← lookupProfile profiles row.user1_id
  let user2 ← lookupProfile profiles row.user2_id
  let otherUserId := if row.user1_id = p.user_id then user2.user_id else user1.user_id
  let userAId := if strLt p.user_id otherUserId then p.user_id else otherUserId
  let userBId := if strLt p.user_id otherUserId then otherUserId else p.user_id
  let logData := logRowsFor log userAId userBId
  some { summary := row
         matched_user := if row.user1_id = p.user_id then user2 else user1
         total_crosses := totalCrossesOf (some logData)
         locations := jsSetDedup (locationsOf logData)
         location_details := locationDetailsOf logData }

/-- Body of the first page's `fetchCrossedPaths` after the summary query has
returned: no profile or a query error yields `[]`; otherwise each row is
enriched, any enrichment failure rejecting the whole batch to `[]`. -/
def fetchCrossedPaths1Core (profiles : List Profile) (log : List LogRow)
    (p : Option Profile) (queryResult : Except String (List SummaryRow)) :
    List EnrichedPath :=
  match p with
  | none => []
  | some prof =>
      match queryResult with
      | .error _ => []
      | .ok rows =>
          match mapOption (enrichRow1 profiles log prof) rows with
          | none => []
          | some paths => paths

/-- Body of the second page's `fetchCrossedPaths` after the summary query. -/
def fetchCrossedPaths2Core (profiles : List Profile) (log : List LogRow)
    (p : Option Profile) (queryResult : Except String (List SummaryRow)) :
    List EnrichedPath2 :=
  match p with
  | none => []
  | some prof =>
      match queryResult with
      | .error _ => []
      | .ok rows =>
          match mapOption (enrichRow2 profiles log prof) rows with
          | none => []
          | some paths => paths

/-- `fetchCrossedPaths` of `src/pages/CrossedPaths.tsx` against an in-memory
database: the summary table is filtered with `profile.id` as the pair-key
filter. -/
def fetchCrossedPaths1 (profiles : List Profile) (table : List SummaryRow)
    (log : List LogRow) (p : Option Profile) : List EnrichedPath :=
  match p with
  | none => []
  | some prof =>
      fetchCrossedPaths1Core profiles log (some prof)
        (Except.ok (selectSummaries table prof.id))

/-- `fetchCrossedPaths` of the second crossed-paths page: the summary table
is filtered with `profile.user_id` as the pair-key filter. -/
def fetchCrossedPaths2 (profiles : List Profile) (table : List SummaryRow)
    (log : List LogRow) (p : Option Profile) : List EnrichedPath2 :=
  match p with
  | none => []
  | some prof =>
      fetchCrossedPaths2Core profiles log (some prof)
        (Except.ok (selectSummaries table prof.user_id))

/-- Modelled from the spec: a CrossLogEntry as maintained by the aggregator
of the `track-restaurant-visit` edge function, which is not in the source
tree (`{user_a_id, user_b_id, restaurant_name, cross_count,
last_crossed_at}`, canonical order, one logical entry per pair+restaurant). -/
structure CrossLogEntry where
  user_a_id : String
  user_b_id : String
  restaurant_name : String
  cross_count : Nat
  last_crossed_at : Nat
deriving DecidableEq, Repr

/-- Modelled from the spec: aggregator state — the append-only ledger plus
the set of `(pair, restaurant, day-bucket)` keys already applied, realising
the uniqueness constraint that makes `recordCrossing` idempotent per
pair/restaurant/day. -/
structure AggState where
  log : List CrossLogEntry
  applied : List (String × String × String × Nat)
deriving DecidableEq, Repr

/-- Day bucket of a millisecond timestamp. -/
def dayBucket (t : Nat) : Nat := t / 86400000

/-- Whether a ledger entry is the logical entry for `(a, b, r)`. -/
def entryMatches (a b r : String) (e : CrossLogEntry) : Bool :=
  e.user_a_id == a && e.user_b_id == b && e.restaurant_name == r

/-- Modelled from the spec: the upsert step on one existing ledger entry —
increment `cross_count` and refresh `last_crossed_at` on the matching
logical entry, leave the others alone. -/
def bumpEntry (a b r : String) (t : Nat) (e : CrossLogEntry) : CrossLogEntry :=
  if entryMatches a b r e then
    { e with cross_count := e.cross_count + 1
             last_crossed_at := max e.last_crossed_at t }
  else e

/-- Modelled from the spec: `recordCrossing(userA, userB, restaurantName,
crossedAt)` of the aggregator (absent from the source tree).  It
canonicalizes the pair, skips a `(pair, restaurant, day)` key already
applied, and otherwise upserts the CrossLogEntry: increment `cross_count`
and refresh `last_crossed_at` if present, else insert with `cross_count = 1`. -/
def recordCrossing (uA uB r : String) (t : Nat) (s : AggState) : AggState :=
  let a := (canonPair uA uB).1
  let b := (canonPair uA uB).2
  let key := (a, b, r, dayBucket t)
  if key ∈ s.applied then s
  else
    let log' :=
      if s.log.any (entryMatches a b r) then s.log.map (bumpEntry a b r t)
      else s.log ++ [{ user_a_id := a, user_b_id := b, restaurant_name := r
                       cross_count := 1, last_crossed_at := t }]
    { log := log', applied := key :: s.applied }

/-- Total `cross_count` recorded for `(a, b, r)` in a ledger. -/
def countFor (log : List CrossLogEntry) (a b r : String) : Nat :=
  ((log.filter (entryMatches a b r)).map (fun e => e.cross_count)).sum

/-- The 14-day expiry window, in milliseconds. -/
def expiryWindowMs : Nat := 14 * 24 * 60 * 60 * 1000

/-- Most recent `last_crossed_at` across all of a summary row's pair's log
rows, under the canonical key of its two user columns. -/
def pairLatest (log : List LogRow) (r : SummaryRow) : Option Nat :=
  ((logRowsFor log (canonPair r.user1_id r.user2_id).1
      (canonPair r.user1_id r.user2_id).2).map
    (fun l => l.last_crossed_at)).max?

/-- Modelled from the spec: one step of `sweepExpired(now)` (the sweep is
not in the source tree) — a pair whose most recent `last_crossed_at` lies
more than the expiry window before `now` is deactivated; other rows are
untouched (a pair with no log rows is left as is). -/
def sweepOne (log : List LogRow) (now : Nat) (r : SummaryRow) : SummaryRow :=
  match pairLatest log r with
  | none => r
  | some last => if last + expiryWindowMs < now then { r with is_active := false }
                 else r

/-- Modelled from the spec: `sweepExpired(now)` over the summary table. -/
def sweepExpired (log : List LogRow) (now : Nat) (table : List SummaryRow) :
    List SummaryRow :=
  table.map (sweepOne log now)

/-! Concrete database states used to evaluate the model on small inputs. -/

/-- One day in milliseconds. -/
def dayMs : Nat := 86400000

/-- A profile whose `id` and `user_id` coincide also as strings. -/
def profU1 : Profile := { id := "u1", user_id := "u1", first_name := "Alice" }

/-- A second profile whose `id` and `user_id` coincide. -/
def profU2 : Profile := { id := "u2", user_id := "u2", first_name := "Bob" }

/-- A profile whose `id` differs from its `user_id`, as for real rows of the
`profiles` table. -/
def profSplit : Profile := { id := "p1", user_id := "u1", first_name := "Alice" }

/-- An active summary row for the pair `("u1", "u2")`. -/
def srowActive : SummaryRow :=
  { id := 1, user1_id := "u1", user2_id := "u2", matched_at := 5, is_active := true }

/-- A log row with a restaurant name and a recorded count. -/
def logJoe : LogRow :=
  { user_a_id := "u1", user_b_id := "u2", restaurant_name := some "Joe"
    cross_count := some 2, last_crossed_at := 2 * dayMs }

/-- A log row with a null restaurant name and a null count. -/
def logNull : LogRow :=
  { user_a_id := "u1", user_b_id := "u2", restaurant_name := none
    cross_count := none, last_crossed_at := dayMs }

/-- A log row for a second restaurant with a null count. -/
def logCafe : LogRow :=
  { user_a_id := "u1", user_b_id := "u2", restaurant_name := some "Cafe"
    cross_count := none, last_crossed_at := 2 * dayMs }

/-- A second log row for the first restaurant, with a zero count. -/
def logJoe2 : LogRow :=
  { user_a_id := "u1", user_b_id := "u2", restaurant_name := some "Joe"
    cross_count := some 0, last_crossed_at := dayMs }

/-! Helper lemmas about the string order. -/

theorem char_toNat_inj {x y : Char} (h : x.toNat = y.toNat) : x = y := by
  rw [← Char.ofNat_toNat x, ← Char.ofNat_toNat y, h]

theorem lexLt_asymm : ∀ xs ys : List Char, lexLt xs ys = true → lexLt ys xs = false
  | [], [] => by simp [lexLt]
  | [], _ :: _ => by simp [lexLt]
  | _ :: _, [] => by simp [lexLt]
  | x :: xs, y :: ys => by
      intro h
      simp only [lexLt] at h ⊢
      by_cases h1 : x.toNat < y.toNat
      · have h2 : ¬ y.toNat < x.toNat := by omega
        simp [h1, h2]
      · by_cases h2 : y.toNat < x.toNat
        · simp [h1, h2] at h
        · simp only [if_neg h1, if_neg h2] at h ⊢
          exact lexLt_asymm xs ys h

theorem lexLt_eq_of_not : ∀ xs ys : List Char,
    lexLt xs ys = false → lexLt ys xs = false → xs = ys
  | [], [] => fun _ _ => rfl
  | [], _ :: _ => by simp [lexLt]
  | _ :: _, [] => by intro _ h; simp [lexLt] at h
  | x :: xs, y :: ys => by
      intro h h'
      simp only [lexLt] at h h'
      by_cases h1 : x.toNat < y.toNat
      · simp [h1] at h
      · by_cases h2 : y.toNat < x.toNat
        · simp [h1, h2] at h'
        · simp only [if_neg h1, if_neg h2] at h h'
          have hxy : x = y := char_toNat_inj (by omega)
          rw [hxy, lexLt_eq_of_not xs ys h h']

theorem strLt_asymm {a b : String} (h : strLt a b = true) : strLt b a = false :=
  lexLt_asymm a.data b.data h

theorem eq_of_strLt_false {a b : String} (h : strLt a b = false)
    (h' : strLt b a = false) : a = b := by
  have hd : a.data = b.data := lexLt_eq_of_not a.data b.data h h'
  cases a
  cases b
  exact congrArg String.mk hd

theorem canonPair_comm {a b : String} (h : a ≠ b) : canonPair a b = canonPair b a := by
  unfold canonPair
  cases hab : strLt a b with
  | true => simp [strLt_asymm hab]
  | false =>
      cases hba : strLt b a with
      | true => simp
      | false => exact absurd (eq_of_strLt_false hab hba) h

theorem canonPair_fst_lt {a b : String} (h : a ≠ b) :
    strLt (canonPair a b).1 (canonPair a b).2 = true := by
  unfold canonPair
  cases hab : strLt a b with
  | true => simpa using hab
  | false =>
      cases hba : strLt b a with
      | true => simpa using hba
      | false => exact absurd (eq_of_strLt_false hab hba) h

/-! Helper lemmas about the aggregates. -/

theorem one_le_jsOrNat (x : Option Nat) : 1 ≤ jsOrNat x 1 := by
  cases x with
  | none => simp [jsOrNat]
  | some n =>
      cases n with
      | zero => simp [jsOrNat]
      | succ m => simp [jsOrNat]

theorem foldl_crosses (l : List LogRow) (init : Nat) :
    l.foldl (fun acc log => acc + jsOrNat log.cross_count 1) init
      = init + (l.map (fun r => jsOrNat r.cross_count 1)).sum := by
  induction l generalizing init with
  | nil => simp
  | cons a t ih => simp [ih, Nat.add_assoc]

theorem totalCrossesOf_eq_sum (l : List LogRow) :
    totalCrossesOf (some l)
      = if l = [] then 1 else (l.map (fun r => jsOrNat r.cross_count 1)).sum := by
  have hdef : totalCrossesOf (some l)
      = (if l.foldl (fun acc log => acc + jsOrNat log.cross_count 1) 0 = 0 then 1
         else l.foldl (fun acc log => acc + jsOrNat log.cross_count 1) 0) := rfl
  rw [hdef, foldl_crosses]
  simp only [Nat.zero_add]
  cases l with
  | nil => simp
  | cons a t =>
      have h1 : 1 ≤ ((a :: t).map (fun r => jsOrNat r.cross_count 1)).sum := by
        have := one_le_jsOrNat a.cross_count
        simp only [List.map_cons, List.sum_cons]
        omega
      have hne : ¬ ((a :: t).map (fun r => jsOrNat r.cross_count 1)).sum = 0 := by omega
      rw [if_neg hne, if_neg (List.cons_ne_nil a t)]

theorem one_le_totalCrossesOf (x : Option (List LogRow)) : 1 ≤ totalCrossesOf x := by
  cases x with
  | none => simp [totalCrossesOf]
  | some l =>
      rw [totalCrossesOf_eq_sum]
      cases l with
      | nil => simp
      | cons a t =>
          have := one_le_jsOrNat a.cross_count
          simp only [List.map_cons, List.sum_cons, List.cons_ne_self]
          split
          · omega
          · omega

theorem mem_dedup_foldl (xs : List String) :
    ∀ acc a, (a ∈ xs.foldl (fun acc x => if x ∈ acc then acc else acc ++ [x]) acc)
      ↔ a ∈ acc ∨ a ∈ xs := by
  induction xs with
  | nil => intro acc a; simp
  | cons x t ih =>
      intro acc a
      simp only [List.foldl_cons]
      by_cases hx : x ∈ acc
      · rw [if_pos hx, ih]
        constructor
        · rintro (h | h)
          · exact Or.inl h
          · exact Or.inr (List.mem_cons_of_mem x h)
        · rintro (h | h)
          · exact Or.inl h
          · rcases List.mem_cons.mp h with rfl | h
            · exact Or.inl hx
            · exact Or.inr h
      · rw [if_neg hx, ih]
        simp only [List.mem_append, List.mem_singleton, List.mem_cons]
        tauto

theorem mem_jsSetDedup (xs : List String) (a : String) :
    a ∈ jsSetDedup xs ↔ a ∈ xs := by
  unfold jsSetDedup
  rw [mem_dedup_foldl]
  simp

theorem nodup_dedup_foldl (xs : List String) :
    ∀ acc, acc.Nodup →
      (xs.foldl (fun acc x => if x ∈ acc then acc else acc ++ [x]) acc).Nodup := by
  induction xs with
  | nil => intro acc h; simpa using h
  | cons x t ih =>
      intro acc h
      simp only [List.foldl_cons]
      by_cases hx : x ∈ acc
      · rw [if_pos hx]; exact ih acc h
      · rw [if_neg hx]
        refine ih _ ?_
        simp [List.nodup_append, h, hx]

theorem jsSetDedup_nodup (xs : List String) : (jsSetDedup xs).Nodup :=
  nodup_dedup_foldl xs [] (by simp)

theorem mem_locationsOf (rows : List LogRow) (s : String) :
    s ∈ locationsOf rows
      ↔ (∃ l ∈ rows, l.restaurant_name = some s) ∧ s ≠ "" := by
  unfold locationsOf
  rw [List.mem_filterMap]
  constructor
  · rintro ⟨r, hr, hf⟩
    rw [List.mem_map] at hr
    obtain ⟨l, hl, rfl⟩ := hr
    cases hname : l.restaurant_name with
    | none => rw [hname] at hf; simp at hf
    | some t =>
        rw [hname] at hf
        by_cases ht : t = ""
        · simp [ht] at hf
        · simp only [ht, if_neg, if_false] at hf
          simp only [if_neg ht, Option.some_inj] at hf
          subst hf
          exact ⟨⟨l, hl, hname⟩, ht⟩
  · rintro ⟨⟨l, hl, hname⟩, hs⟩
    refine ⟨some s, List.mem_map.mpr ⟨l, hl, by rw [hname]⟩, ?_⟩
    simp [hs]

/-! Helper lemmas about the batched enrichment. -/

theorem mapOption_map_eq {α β : Type} (f : α → Option β) (g : β → α)
    (hg : ∀ a b, f a = some b → g b = a) :
    ∀ l l', mapOption f l = some l' → l'.map g = l := by
  intro l
  induction l with
  | nil => intro l' h; cases h; rfl
  | cons a t ih =>
      intro l' h
      unfold mapOption at h
      cases hfa : f a with
      | none => rw [hfa] at h; exact absurd h (by simp)
      | some b =>
          cases hmt : mapOption f t with
          | none => rw [hfa, hmt] at h; exact absurd h (by simp)
          | some bs =>
              rw [hfa, hmt] at h
              cases h
              simp [List.map_cons, ih bs hmt, hg a b hfa]

theorem mapOption_mem {α β : Type} (f : α → Option β) :
    ∀ l l', mapOption f l = some l' → ∀ b ∈ l', ∃ a ∈ l, f a = some b := by
  intro l
  induction l with
  | nil =>
      intro l' h b hb
      cases h
      simp at hb
  | cons a t ih =>
      intro l' h b hb
      unfold mapOption at h
      cases hfa : f a with
      | none => rw [hfa] at h; exact absurd h (by simp)
      | some c =>
          cases hmt : mapOption f t with
          | none => rw [hfa, hmt] at h; exact absurd h (by simp)
          | some bs =>
              rw [hfa, hmt] at h
              cases h
              rcases List.mem_cons.mp hb with rfl | hb
              · exact ⟨a, List.mem_cons_self a t, hfa⟩
              · obtain ⟨a', ha', hfa'⟩ := ih bs hmt b hb
                exact ⟨a', List.mem_cons_of_mem a ha', hfa'⟩

theorem mapOption_isSome {α β : Type} (f : α → Option β) :
    ∀ l, (∀ a ∈ l, (f a).isSome) → ∃ l', mapOption f l = some l' := by
  intro l
  induction l with
  | nil => intro _; exact ⟨[], rfl⟩
  | cons a t ih =>
      intro h
      obtain ⟨b, hb⟩ := Option.isSome_iff_exists.mp (h a (List.mem_cons_self a t))
      obtain ⟨bs, hbs⟩ := ih (fun x hx => h x (List.mem_cons_of_mem a hx))
      refine ⟨b :: bs, ?_⟩
      unfold mapOption
      rw [hb, hbs]

/-! Helper lemmas about the descending sort of the summary query. -/

theorem mem_insertDesc (r : SummaryRow) :
    ∀ l a, a ∈ insertDesc r l ↔ a = r ∨ a ∈ l := by
  intro l
  induction l with
  | nil => intro a; simp [insertDesc]
  | cons x xs ih =>
      intro a
      unfold insertDesc
      by_cases h : r.matched_at ≤ x.matched_at
      · rw [if_pos h]
        simp only [List.mem_cons, ih]
        tauto
      · rw [if_neg h]
        simp only [List.mem_cons]

theorem pairwise_insertDesc (r : SummaryRow) :
    ∀ l, l.Pairwise (fun a b => b.matched_at ≤ a.matched_at) →
      (insertDesc r l).Pairwise (fun a b => b.matched_at ≤ a.matched_at) := by
  intro l
  induction l with
  | nil => intro _; simp [insertDesc]
  | cons x xs ih =>
      intro h
      rw [List.pairwise_cons] at h
      obtain ⟨hx, hxs⟩ := h
      unfold insertDesc
      by_cases hle : r.matched_at ≤ x.matched_at
      · rw [if_pos hle, List.pairwise_cons]
        refine ⟨?_, ih hxs⟩
        intro a ha
        rcases (mem_insertDesc r xs a).mp ha with rfl | ha
        · exact hle
        · exact hx a ha
      · rw [if_neg hle, List.pairwise_cons]
        constructor
        · intro a ha
          rcases List.mem_cons.mp ha with rfl | ha
          · omega
          · have := hx a ha
            omega
        · exact List.pairwise_cons.mpr ⟨hx, hxs⟩

theorem pairwise_sortDesc (l : List SummaryRow) :
    (sortByMatchedAtDesc l).Pairwise (fun a b => b.matched_at ≤ a.matched_at) := by
  unfold sortByMatchedAtDesc
  induction l with
  | nil => simp
  | cons x xs ih =>
      simp only [List.foldr_cons]
      exact pairwise_insertDesc x _ ih

theorem mem_sortDesc (l : List SummaryRow) (a : SummaryRow) :
    a ∈ sortByMatchedAtDesc l ↔ a ∈ l := by
  unfold sortByMatchedAtDesc
  induction l with
  | nil => simp
  | cons x xs ih =>
      simp only [List.foldr_cons, mem_insertDesc, List.mem_cons, ih]

theorem mem_selectSummaries (table : List SummaryRow) (uid : String) (r : SummaryRow) :
    r ∈ selectSummaries table uid
      ↔ r ∈ table ∧ (r.user1_id = uid ∨ r.user2_id = uid) ∧ r.is_active = true := by
  unfold selectSummaries
  rw [mem_sortDesc, List.mem_filter]
  simp only [Bool.and_eq_true, Bool.or_eq_true, beq_iff_eq]

theorem pairwise_selectSummaries (table : List SummaryRow) (uid : String) :
    (selectSummaries table uid).Pairwise (fun a b => b.matched_at ≤ a.matched_at) :=
  pairwise_sortDesc _

/-! Evaluation lemmas for the per-row enrichment. -/

theorem enrichRow1_eq (profiles : List Profile) (log : List LogRow) (p : Profile)
    (row : SummaryRow) (u1 u2 : Profile)
    (h1 : lookupProfile profiles row.user1_id = some u1)
    (h2 : lookupProfile profiles row.user2_id = some u2) :
    enrichRow1 profiles log p row =
      some { summary := row
             matched_user := if row.user1_id = p.id then u2 else u1
             total_crosses := totalCrossesOf (some (logRowsFor log
               (canonPair p.user_id
                 (if row.user1_id = p.id then u2.user_id else u1.user_id)).1
               (canonPair p.user_id
                 (if row.user1_id = p.id then u2.user_id else u1.user_id)).2))
             locations := jsSetDedup (locationsOf (logRowsFor log
               (canonPair p.user_id
                 (if row.user1_id = p.id then u2.user_id else u1.user_id)).1
               (canonPair p.user_id
                 (if row.user1_id = p.id then u2.user_id else u1.user_id)).2)) } := by
  unfold enrichRow1
  rw [h1, h2]
  cases hlt : strLt p.user_id (if row.user1_id = p.id then u2.user_id else u1.user_id) with
  | true => simp [canonPair, hlt]
  | false => simp [canonPair, hlt]

theorem enrichRow2_eq (profiles : List Profile) (log : List LogRow) (p : Profile)
    (row : SummaryRow) (u1 u2 : Profile)
    (h1 : lookupProfile profiles row.user1_id = some u1)
    (h2 : lookupProfile profiles row.user2_id = some u2) :
    enrichRow2 profiles log p row =
      some { summary := row
             matched_user := if row.user1_id = p.user_id then u2 else u1
             total_crosses := totalCrossesOf (some (logRowsFor log
               (canonPair p.user_id
                 (if row.user1_id = p.user_id then u2.user_id else u1.user_id)).1
               (canonPair p.user_id
                 (if row.user1_id = p.user_id then u2.user_id else u1.user_id)).2))
             locations := jsSetDedup (locationsOf (logRowsFor log
               (canonPair p.user_id
                 (if row.user1_id = p.user_id then u2.user_id else u1.user_id)).1
               (canonPair p.user_id
                 (if row.user1_id = p.user_id then u2.user_id else u1.user_id)).2))
             location_details := locationDetailsOf (logRowsFor log
               (canonPair p.user_id
                 (if row.user1_id = p.user_id then u2.user_id else u1.user_id)).1
               (canonPair p.user_id
                 (if row.user1_id = p.user_id then u2.user_id else u1.user_id)).2) } := by
  unfold enrichRow2
  rw [h1, h2]
  cases hlt : strLt p.user_id (if row.user1_id = p.user_id then u2.user_id else u1.user_id) with
  | true => simp [canonPair, hlt]
  | false => simp [canonPair, hlt]

theorem enrichRow1_summary (profiles : List Profile) (log : List LogRow) (p : Profile)
    (row : SummaryRow) (path : EnrichedPath)
    (h : enrichRow1 profiles log p row = some path) : path.summary = row := by
  cases h1 : lookupProfile profiles row.user1_id with
  | none => unfold enrichRow1 at h; rw [h1] at h; exact absurd h (by simp)
  | some u1 =>
      cases h2 : lookupProfile profiles row.user2_id with
      | none => unfold enrichRow1 at h; rw [h1, h2] at h; exact absurd h (by simp)
      | some u2 =>
          rw [enrichRow1_eq profiles log p row u1 u2 h1 h2, Option.some_inj] at h
          rw [← h]

theorem enrichRow2_summary (profiles : List Profile) (log : List LogRow) (p : Profile)
    (row : SummaryRow) (path : EnrichedPath2)
    (h : enrichRow2 profiles log p row = some path) : path.summary = row := by
  cases h1 : lookupProfile profiles row.user1_id with
  | none => unfold enrichRow2 at h; rw [h1] at h; exact absurd h (by simp)
  | some u1 =>
      cases h2 : lookupProfile profiles row.user2_id with
      | none => unfold enrichRow2 at h; rw [h1, h2] at h; exact absurd h (by simp)
      | some u2 =>
          rw [enrichRow2_eq profiles log p row u1 u2 h1 h2, Option.some_inj] at h
          rw [← h]

theorem enrichRow1_total_pos (profiles : List Profile) (log : List LogRow)
    (p : Profile) (row : SummaryRow) (path : EnrichedPath)
    (h : enrichRow1 profiles log p row = some path) : 1 ≤ path.total_crosses := by
  cases h1 : lookupProfile profiles row.user1_id with
  | none => unfold enrichRow1 at h; rw [h1] at h; exact absurd h (by simp)
  | some u1 =>
      cases h2 : lookupProfile profiles row.user2_id with
      | none => unfold enrichRow1 at h; rw [h1, h2] at h; exact absurd h (by simp)
      | some u2 =>
          rw [enrichRow1_eq profiles log p row u1 u2 h1 h2, Option.some_inj] at h
          rw [← h]
          exact one_le_totalCrossesOf (some (logRowsFor log
            (canonPair p.user_id
              (if row.user1_id = p.id then u2.user_id else u1.user_id)).1
            (canonPair p.user_id
              (if row.user1_id = p.id then u2.user_id else u1.user_id)).2))

theorem enrichRow2_total_pos (profiles : List Profile) (log : List LogRow)
    (p : Profile) (row : SummaryRow) (path : EnrichedPath2)
    (h : enrichRow2 profiles log p row = some path) : 1 ≤ path.total_crosses := by
  cases h1 : lookupProfile profiles row.user1_id with
  | none => unfold enrichRow2 at h; rw [h1] at h; exact absurd h (by simp)
  | some u1 =>
      cases h2 : lookupProfile profiles row.user2_id with
      | none => unfold enrichRow2 at h; rw [h1, h2] at h; exact absurd h (by simp)
      | some u2 =>
          rw [enrichRow2_eq profiles log p row u1 u2 h1 h2, Option.some_inj] at h
          rw [← h]
          exact one_le_totalCrossesOf (some (logRowsFor log
            (canonPair p.user_id
              (if row.user1_id = p.user_id then u2.user_id else u1.user_id)).1
            (canonPair p.user_id
              (if row.user1_id = p.user_id then u2.user_id else u1.user_id)).2))

theorem fetch1_eq (profiles : List Profile) (table : List SummaryRow)
    (log : List LogRow) (prof : Profile) :
    fetchCrossedPaths1 profiles table log (some prof)
      = match mapOption (enrichRow1 profiles log prof)
          (selectSummaries table prof.id) with
        | none => []
        | some paths => paths := rfl

theorem fetch2_eq (profiles : List Profile) (table : List SummaryRow)
    (log : List LogRow) (prof : Profile) :
    fetchCrossedPaths2 profiles table log (some prof)
      = match mapOption (enrichRow2 profiles log prof)
          (selectSummaries table prof.user_id) with
        | none => []
        | some paths => paths := rfl

theorem fetch1_mem (profiles : List Profile) (table : List SummaryRow)
    (log : List LogRow) (prof : Profile) (path : EnrichedPath)
    (h : path ∈ fetchCrossedPaths1 profiles table log (some prof)) :
    ∃ row ∈ selectSummaries table prof.id,
      enrichRow1 profiles log prof row = some path := by
  rw [fetch1_eq] at h
  split at h
  · simp at h
  · rename_i paths hm
    exact mapOption_mem _ _ _ hm path h

theorem fetch2_mem (profiles : List Profile) (table : List SummaryRow)
    (log : List LogRow) (prof : Profile) (path : EnrichedPath2)
    (h : path ∈ fetchCrossedPaths2 profiles table log (some prof)) :
    ∃ row ∈ selectSummaries table prof.user_id,
      enrichRow2 profiles log prof row = some path := by
  rw [fetch2_eq] at h
  split at h
  · simp at h
  · rename_i paths hm
    exact mapOption_mem _ _ _ hm path h

theorem mapOption_mem_of {α β : Type} (f : α → Option β) :
    ∀ l l', mapOption f l = some l' → ∀ a ∈ l, ∀ b, f a = some b → b ∈ l' := by
  intro l
  induction l with
  | nil => intro l' h a ha; simp at ha
  | cons x t ih =>
      intro l' h a ha b hb
      unfold mapOption at h
      cases hfx : f x with
      | none => rw [hfx] at h; exact absurd h (by simp)
      | some c =>
          cases hmt : mapOption f t with
          | none => rw [hfx, hmt] at h; exact absurd h (by simp)
          | some bs =>
              rw [hfx, hmt] at h
              cases h
              rcases List.mem_cons.mp ha with rfl | ha
              · rw [hfx, Option.some_inj] at hb
                rw [← hb]
                exact List.mem_cons_self c bs
              · exact List.mem_cons_of_mem c (ih bs hmt a ha b hb)

theorem fetch1_pairwise (profiles : List Profile) (table : List SummaryRow)
    (log : List LogRow) (prof : Profile) :
    (fetchCrossedPaths1 profiles table log (some prof)).Pairwise
      (fun x y => y.summary.matched_at ≤ x.summary.matched_at) := by
  rw [fetch1_eq]
  split
  · simp
  · rename_i paths hm
    have hmap := mapOption_map_eq (enrichRow1 profiles log prof)
      (fun e => e.summary)
      (fun row path hp => enrichRow1_summary profiles log prof row path hp)
      _ _ hm
    have hpw := pairwise_selectSummaries table prof.id
    rw [← hmap, List.pairwise_map] at hpw
    exact hpw

theorem fetch2_pairwise (profiles : List Profile) (table : List SummaryRow)
    (log : List LogRow) (prof : Profile) :
    (fetchCrossedPaths2 profiles table log (some prof)).Pairwise
      (fun x y => y.summary.matched_at ≤ x.summary.matched_at) := by
  rw [fetch2_eq]
  split
  · simp
  · rename_i paths hm
    have hmap := mapOption_map_eq (enrichRow2 profiles log prof)
      (fun e => e.summary)
      (fun row path hp => enrichRow2_summary profiles log prof row path hp)
      _ _ hm
    have hpw := pairwise_selectSummaries table prof.user_id
    rw [← hmap, List.pairwise_map] at hpw
    exact hpw

theorem enrichRow1_isSome (profiles : List Profile) (log : List LogRow)
    (p : Profile) (row : SummaryRow) (u1 u2 : Profile)
    (h1 : lookupProfile profiles row.user1_id = some u1)
    (h2 : lookupProfile profiles row.user2_id = some u2) :
    (enrichRow1 profiles log p row).isSome := by
  rw [enrichRow1_eq profiles log p row u1 u2 h1 h2]
  rfl

theorem fetch1_complete (profiles : List Profile) (table : List SummaryRow)
    (log : List LogRow) (prof : Profile)
    (hres : ∀ r ∈ selectSummaries table prof.id,
      (enrichRow1 profiles log prof r).isSome)
    (row : SummaryRow) (hrow : row ∈ selectSummaries table prof.id) :
    ∃ path ∈ fetchCrossedPaths1 profiles table log (some prof),
      path.summary = row := by
  obtain ⟨paths, hm⟩ := mapOption_isSome (enrichRow1 profiles log prof) _ hres
  obtain ⟨path, hp⟩ := Option.isSome_iff_exists.mp (hres row hrow)
  refine ⟨path, ?_, enrichRow1_summary profiles log prof row path hp⟩
  rw [fetch1_eq, hm]
  exact mapOption_mem_of _ _ _ hm row hrow path hp

theorem enrichRow2_isSome (profiles : List Profile) (log : List LogRow)
    (p : Profile) (row : SummaryRow) (u1 u2 : Profile)
    (h1 : lookupProfile profiles row.user1_id = some u1)
    (h2 : lookupProfile profiles row.user2_id = some u2) :
    (enrichRow2 profiles log p row).isSome := by
  rw [enrichRow2_eq profiles log p row u1 u2 h1 h2]
  rfl

theorem fetch2_complete (profiles : List Profile) (table : List SummaryRow)
    (log : List LogRow) (prof : Profile)
    (hres : ∀ r ∈ selectSummaries table prof.user_id,
      (enrichRow2 profiles log prof r).isSome)
    (row : SummaryRow) (hrow : row ∈ selectSummaries table prof.user_id) :
    ∃ path ∈ fetchCrossedPaths2 profiles table log (some prof),
      path.summary = row := by
  obtain ⟨paths, hm⟩ := mapOption_isSome (enrichRow2 profiles log prof) _ hres
  obtain ⟨path, hp⟩ := Option.isSome_iff_exists.mp (hres row hrow)
  refine ⟨path, ?_, enrichRow2_summary profiles log prof row path hp⟩
  rw [fetch2_eq, hm]
  exact mapOption_mem_of _ _ _ hm row hrow path hp

/-! The claims. -/

/-- Claim C4: for every user with a profile, the crossed-paths query returns
only summary rows whose `is_active` flag is true and in which the querying
id of the page (`profile.id` on the first page, `profile.user_id` on the
second) is one of `user1_id`/`user2_id`, and the returned sequence is sorted
by `matched_at` in descending order. -/
theorem C4_active_filtered_sorted (profiles : List Profile)
    (table : List SummaryRow) (log : List LogRow) (prof : Profile) :
    (∀ path ∈ fetchCrossedPaths1 profiles table log (some prof),
        path.summary.is_active = true ∧
          (path.summary.user1_id = prof.id ∨ path.summary.user2_id = prof.id)) ∧
    (fetchCrossedPaths1 profiles table log (some prof)).Pairwise
        (fun x y => y.summary.matched_at ≤ x.summary.matched_at) ∧
    (∀ path ∈ fetchCrossedPaths2 profiles table log (some prof),
        path.summary.is_active = true ∧
          (path.summary.user1_id = prof.user_id ∨
            path.summary.user2_id = prof.user_id)) ∧
    (fetchCrossedPaths2 profiles table log (some prof)).Pairwise
        (fun x y => y.summary.matched_at ≤ x.summary.matched_at) := by
  refine ⟨?_, fetch1_pairwise profiles table log prof, ?_,
    fetch2_pairwise profiles table log prof⟩
  · intro path hp
    obtain ⟨row, hrow, he⟩ := fetch1_mem profiles table log prof path hp
    have hs := enrichRow1_summary profiles log prof row path he
    rw [mem_selectSummaries] at hrow
    rw [hs]
    exact ⟨hrow.2.2, hrow.2.1⟩
  · intro path hp
    obtain ⟨row, hrow, he⟩ := fetch2_mem profiles table log prof path hp
    have hs := enrichRow2_summary profiles log prof row path he
    rw [mem_selectSummaries] at hrow
    rw [hs]
    exact ⟨hrow.2.2, hrow.2.1⟩

/-- Witness for C4 at a concrete database state. -/
theorem C4_witness :
    (⟨srowActive, profU2, 3, ["Joe"]⟩ : EnrichedPath).summary.is_active = true ∧
      ((⟨srowActive, profU2, 3, ["Joe"]⟩ : EnrichedPath).summary.user1_id = profU1.id ∨
        (⟨srowActive, profU2, 3, ["Joe"]⟩ : EnrichedPath).summary.user2_id = profU1.id) :=
  (C4_active_filtered_sorted [profU1, profU2] [srowActive] [logJoe, logNull]
    profU1).1 ⟨srowActive, profU2, 3, ["Joe"]⟩ (by decide)

/-- Claim C5: pair canonicalization is symmetric and order-normalizing; the
inline ternaries of both pages compute exactly `canonPair`, the log lookup
key is invariant under swapping the two members of the pair, and
`recordCrossing` (modelled from the spec) addresses the same canonical entry
from either argument order. -/
theorem C5_canonicalization (a b : String) (h : a ≠ b) :
    canonPair a b = canonPair b a ∧
    strLt (canonPair a b).1 (canonPair a b).2 = true ∧
    (∀ x y : String,
      (if strLt x y then x else y, if strLt x y then y else x) = canonPair x y) ∧
    (∀ log : List LogRow,
      logRowsFor log (canonPair a b).1 (canonPair a b).2
        = logRowsFor log (canonPair b a).1 (canonPair b a).2) ∧
    (∀ (r : String) (t : Nat) (s : AggState),
      recordCrossing a b r t s = recordCrossing b a r t s) := by
  have hcomm := canonPair_comm h
  refine ⟨hcomm, canonPair_fst_lt h, ?_, ?_, ?_⟩
  · intro x y
    unfold canonPair
    cases hxy : strLt x y <;> simp [hxy]
  · intro log
    rw [hcomm]
  · intro r t s
    unfold recordCrossing
    rw [hcomm]

/-- Witness for C5 at concrete distinct ids. -/
theorem C5_witness :
    canonPair "u2" "u1" = canonPair "u1" "u2" ∧
      strLt (canonPair "u2" "u1").1 (canonPair "u2" "u1").2 = true :=
  ⟨(C5_canonicalization "u2" "u1" (by decide)).1,
    (C5_canonicalization "u2" "u1" (by decide)).2.1⟩

/-- Claim C7: the crossed-paths read never fails on a valid empty state — no
profile, a failed summary query, or an empty selection each produce the
empty sequence on both pages. -/
theorem C7_empty_states (profiles : List Profile) (log : List LogRow) :
    (∀ q, fetchCrossedPaths1Core profiles log none q = []) ∧
    (∀ prof e, fetchCrossedPaths1Core profiles log (some prof)
        (Except.error e) = []) ∧
    (∀ prof, fetchCrossedPaths1Core profiles log (some prof)
        (Except.ok []) = []) ∧
    (∀ table, fetchCrossedPaths1 profiles table log none = []) ∧
    (∀ table prof, selectSummaries table prof.id = [] →
        fetchCrossedPaths1 profiles table log (some prof) = []) ∧
    (∀ q, fetchCrossedPaths2Core profiles log none q = []) ∧
    (∀ prof e, fetchCrossedPaths2Core profiles log (some prof)
        (Except.error e) = []) ∧
    (∀ prof, fetchCrossedPaths2Core profiles log (some prof)
        (Except.ok []) = []) ∧
    (∀ table, fetchCrossedPaths2 profiles table log none = []) ∧
    (∀ table prof, selectSummaries table prof.user_id = [] →
        fetchCrossedPaths2 profiles table log (some prof) = []) := by
  refine ⟨fun q => rfl, fun prof e => rfl, fun prof => rfl, fun table => rfl,
    ?_, fun q => rfl, fun prof e => rfl, fun prof => rfl, fun table => rfl, ?_⟩
  · intro table prof h
    rw [fetch1_eq, h]
    rfl
  · intro table prof h
    rw [fetch2_eq, h]
    rfl

/-- Witness for C7: concrete empty selections yield the empty sequence. -/
theorem C7_witness :
    fetchCrossedPaths1 [] [] [] (some profU1) = [] ∧
      fetchCrossedPaths2 [] [] [] (some profU1) = [] :=
  ⟨(C7_empty_states [] []).2.2.2.2.1 [] profU1 rfl,
    (C7_empty_states [] []).2.2.2.2.2.2.2.2.2 [] profU1 rfl⟩

/-- Claim C9: every crossed path returned by either page has
`total_crosses` at least 1: with no log rows the total defaults to 1, and a
null `cross_count` contributes 1, so the displayed count is never 0. -/
theorem C9_total_crosses_pos (profiles : List Profile) (table : List SummaryRow)
    (log : List LogRow) (p : Option Profile) :
    (∀ path ∈ fetchCrossedPaths1 profiles table log p, 1 ≤ path.total_crosses) ∧
    (∀ path ∈ fetchCrossedPaths2 profiles table log p, 1 ≤ path.total_crosses) := by
  constructor
  · intro path hp
    cases p with
    | none =>
        have hnil : fetchCrossedPaths1 profiles table log none = [] := rfl
        rw [hnil] at hp
        simp at hp
    | some prof =>
        obtain ⟨row, _, he⟩ := fetch1_mem profiles table log prof path hp
        exact enrichRow1_total_pos profiles log prof row path he
  · intro path hp
    cases p with
    | none =>
        have hnil : fetchCrossedPaths2 profiles table log none = [] := rfl
        rw [hnil] at hp
        simp at hp
    | some prof =>
        obtain ⟨row, _, he⟩ := fetch2_mem profiles table log prof path hp
        exact enrichRow2_total_pos profiles log prof row path he

/-- Witness for C9 at a concrete database state with a null count row. -/
theorem C9_witness :
    1 ≤ (⟨srowActive, profU2, 3, ["Joe"]⟩ : EnrichedPath).total_crosses :=
  (C9_total_crosses_pos [profU1, profU2] [srowActive] [logJoe, logNull]
    (some profU1)).1 ⟨srowActive, profU2, 3, ["Joe"]⟩ (by decide)

/-! Lemmas for the aggregator upsert. -/

theorem entryMatches_bumpEntry (a b r : String) (t : Nat) (e : CrossLogEntry) :
    entryMatches a b r (bumpEntry a b r t e) = entryMatches a b r e := by
  unfold bumpEntry
  split <;> rfl

theorem filter_map_bump (l : List CrossLogEntry) (a b r : String) (t : Nat) :
    (l.map (bumpEntry a b r t)).filter (entryMatches a b r)
      = (l.filter (entryMatches a b r)).map (bumpEntry a b r t) := by
  rw [List.filter_map]
  congr 1
  apply List.filter_congr
  intro e _
  exact entryMatches_bumpEntry a b r t e

theorem sum_map_bump (a b r : String) (t : Nat) :
    ∀ l : List CrossLogEntry, (∀ e ∈ l, entryMatches a b r e = true) →
      ((l.map (bumpEntry a b r t)).map (fun e => e.cross_count)).sum
        = (l.map (fun e => e.cross_count)).sum + l.length := by
  intro l
  induction l with
  | nil => intro _; simp
  | cons x xs ih =>
      intro h
      have hx : entryMatches a b r x = true := h x (List.mem_cons_self x xs)
      have hbump : (bumpEntry a b r t x).cross_count = x.cross_count + 1 := by
        unfold bumpEntry
        rw [if_pos hx]
      simp only [List.map_cons, List.sum_cons, List.length_cons, hbump,
        ih (fun e he => h e (List.mem_cons_of_mem x he))]
      omega

theorem countFor_map_bump (l : List CrossLogEntry) (a b r : String) (t : Nat)
    (hlen : (l.filter (entryMatches a b r)).length ≤ 1)
    (hany : l.any (entryMatches a b r) = true) :
    countFor (l.map (bumpEntry a b r t)) a b r = countFor l a b r + 1 := by
  unfold countFor
  rw [filter_map_bump,
    sum_map_bump a b r t _ (fun e he => (List.mem_filter.mp he).2)]
  rw [List.any_eq_true] at hany
  obtain ⟨e, he, hm⟩ := hany
  have hmem : e ∈ l.filter (entryMatches a b r) := List.mem_filter.mpr ⟨he, hm⟩
  have hpos : 0 < (l.filter (entryMatches a b r)).length :=
    List.length_pos_of_mem hmem
  omega

theorem countFor_append_new (l : List CrossLogEntry) (a b r : String) (t : Nat) :
    countFor (l ++ [{ user_a_id := a, user_b_id := b, restaurant_name := r
                      cross_count := 1, last_crossed_at := t }]) a b r
      = countFor l a b r + 1 := by
  unfold countFor
  rw [List.filter_append]
  have hnew : entryMatches a b r
      { user_a_id := a, user_b_id := b, restaurant_name := r
        cross_count := 1, last_crossed_at := t } = true := by
    simp [entryMatches]
  simp [hnew]

theorem recordCrossing_eq (uA uB r : String) (t : Nat) (s : AggState) :
    recordCrossing uA uB r t s =
      if ((canonPair uA uB).1, (canonPair uA uB).2, r, dayBucket t) ∈ s.applied
      then s
      else { log :=
               if s.log.any (entryMatches (canonPair uA uB).1 (canonPair uA uB).2 r)
               then s.log.map (bumpEntry (canonPair uA uB).1 (canonPair uA uB).2 r t)
               else s.log ++
                 [{ user_a_id := (canonPair uA uB).1
                    user_b_id := (canonPair uA uB).2
                    restaurant_name := r, cross_count := 1, last_crossed_at := t }]
             applied := ((canonPair uA uB).1, (canonPair uA uB).2, r, dayBucket t)
               :: s.applied } := rfl

/-- Claim C8 (modelled from the spec, the aggregator being absent from the
source tree): `recordCrossing` is idempotent per pair/restaurant/day — for a
`(pair, restaurant, day)` key not yet applied, and a ledger holding at most
one logical entry for the pair and restaurant, calling it twice with the
same arguments leaves the total `cross_count` for that pair and restaurant
incremented by exactly 1, not 2. -/
theorem C8_record_crossing_idempotent (uA uB r : String) (t : Nat) (s : AggState)
    (hkey : ((canonPair uA uB).1, (canonPair uA uB).2, r, dayBucket t)
      ∉ s.applied)
    (hlen : (s.log.filter
      (entryMatches (canonPair uA uB).1 (canonPair uA uB).2 r)).length ≤ 1) :
    countFor (recordCrossing uA uB r t (recordCrossing uA uB r t s)).log
        (canonPair uA uB).1 (canonPair uA uB).2 r
      = countFor s.log (canonPair uA uB).1 (canonPair uA uB).2 r + 1 := by
  rw [recordCrossing_eq uA uB r t s, if_neg hkey]
  rw [recordCrossing_eq]
  rw [if_pos (List.mem_cons_self _ _)]
  cases hany : s.log.any
      (entryMatches (canonPair uA uB).1 (canonPair uA uB).2 r) with
  | true =>
      simp only [hany, if_true]
      exact countFor_map_bump s.log _ _ r t hlen hany
  | false =>
      simp only [hany, Bool.false_eq_true, if_false]
      exact countFor_append_new s.log _ _ r t

/-- Witness for C8 at a concrete call on the empty aggregator state. -/
theorem C8_witness :
    ¬ (((canonPair "u2" "u1").1, (canonPair "u2" "u1").2, "Joe", dayBucket 100)
        ∈ (⟨[], []⟩ : AggState).applied) ∧
    countFor (recordCrossing "u2" "u1" "Joe" 100
        (recordCrossing "u2" "u1" "Joe" 100 ⟨[], []⟩)).log
        (canonPair "u2" "u1").1 (canonPair "u2" "u1").2 "Joe"
      = countFor (⟨[], []⟩ : AggState).log
          (canonPair "u2" "u1").1 (canonPair "u2" "u1").2 "Joe" + 1 :=
  ⟨by decide,
    C8_record_crossing_idempotent "u2" "u1" "Joe" 100 ⟨[], []⟩ (by decide)
      (by decide)⟩

theorem sweepOne_eq_some (log : List LogRow) (now : Nat) (r : SummaryRow)
    (last : Nat) (hl : pairLatest log r = some last) :
    sweepOne log now r =
      if last + expiryWindowMs < now then { r with is_active := false } else r := by
  unfold sweepOne
  rw [hl]

/-- Claim C3 (amended): after a sweep (modelled from the spec, the sweep
being absent from the source tree), a pair whose most recent
`last_crossed_at` lies more than 14 days before `now` has
`is_active = false`, and a pair within the window is left untouched; the
read paths of both pages, however, perform no expiry check — each returns
every stored row whose `is_active` flag is true and matches the user,
regardless of how old the latest crossing of the pair is. -/
theorem C3_sweep_expiry_lazy_read (log : List LogRow) (now : Nat)
    (r : SummaryRow) (last : Nat) (hl : pairLatest log r = some last) :
    (last + expiryWindowMs < now → (sweepOne log now r).is_active = false) ∧
    (¬ last + expiryWindowMs < now → sweepOne log now r = r) ∧
    (∀ (table : List SummaryRow) (r' : SummaryRow),
        r' ∈ sweepExpired log now table → ∃ r0 ∈ table, r' = sweepOne log now r0) ∧
    (∀ (profiles : List Profile) (table : List SummaryRow) (prof : Profile)
        (row : SummaryRow),
      (∀ r' ∈ selectSummaries table prof.id,
          (enrichRow1 profiles log prof r').isSome) →
      row ∈ table → row.is_active = true →
      (row.user1_id = prof.id ∨ row.user2_id = prof.id) →
      ∃ path ∈ fetchCrossedPaths1 profiles table log (some prof),
        path.summary = row) ∧
    (∀ (profiles : List Profile) (table : List SummaryRow) (prof : Profile)
        (row : SummaryRow),
      (∀ r' ∈ selectSummaries table prof.user_id,
          (enrichRow2 profiles log prof r').isSome) →
      row ∈ table → row.is_active = true →
      (row.user1_id = prof.user_id ∨ row.user2_id = prof.user_id) →
      ∃ path ∈ fetchCrossedPaths2 profiles table log (some prof),
        path.summary = row) := by
  refine ⟨?_, ?_, ?_, ?_, ?_⟩
  · intro h
    rw [sweepOne_eq_some log now r last hl, if_pos h]
  · intro h
    rw [sweepOne_eq_some log now r last hl, if_neg h]
  · intro table r' h
    unfold sweepExpired at h
    rw [List.mem_map] at h
    obtain ⟨r0, h0, he⟩ := h
    exact ⟨r0, h0, he.symm⟩
  · intro profiles table prof row hres hmem hact hmatch
    refine fetch1_complete profiles table log prof hres row ?_
    rw [mem_selectSummaries]
    exact ⟨hmem, hmatch, hact⟩
  · intro profiles table prof row hres hmem hact hmatch
    refine fetch2_complete profiles table log prof hres row ?_
    rw [mem_selectSummaries]
    exact ⟨hmem, hmatch, hact⟩

/-- Counterexample for C3 as stated: a pair whose latest crossing lies 15
days in the past but whose stored flag is still true is returned as active
by the read path of either page — reads do not check expiry first. -/
theorem C3_counterexample :
    pairLatest [logJoe, logNull] srowActive = some (2 * dayMs) ∧
    2 * dayMs + expiryWindowMs < 17 * dayMs ∧
    (fetchCrossedPaths1 [profU1, profU2] [srowActive] [logJoe, logNull]
        (some profU1)).map (fun path => path.summary.is_active) = [true] ∧
    (fetchCrossedPaths2 [profU1, profU2] [srowActive] [logJoe, logNull]
        (some profU1)).map (fun path => path.summary.is_active) = [true] :=
  ⟨by decide, by decide, by decide, by decide⟩

/-- Witness for C3 (amended): the sweep deactivates the pair 15 days after
its latest crossing and leaves it untouched 13 days after. -/
theorem C3_witness :
    (sweepOne [logJoe, logNull] (17 * dayMs) srowActive).is_active = false ∧
    sweepOne [logJoe, logNull] (15 * dayMs) srowActive = srowActive :=
  ⟨(C3_sweep_expiry_lazy_read [logJoe, logNull] (17 * dayMs) srowActive
      (2 * dayMs) (by decide)).1 (by decide),
   (C3_sweep_expiry_lazy_read [logJoe, logNull] (15 * dayMs) srowActive
      (2 * dayMs) (by decide)).2.1 (by decide)⟩

/-- Counterexample for C1 as stated: a pair with an active summary row but
zero log rows is displayed with `total_crosses = 1`, while the sum of
`cross_count` over its (zero) log rows is 0. -/
theorem C1_counterexample :
    (fetchCrossedPaths1 [profU1, profU2] [srowActive] [] (some profU1)).map
        (fun path => path.total_crosses) = [1] ∧
    ((logRowsFor [] (canonPair profU1.user_id profU2.user_id).1
        (canonPair profU1.user_id profU2.user_id).2).map
        (fun l => jsOrNat l.cross_count 1)).sum = 0 :=
  ⟨by decide, by decide⟩

/-- Claim C1 (amended): on both pages, `total_crosses` of a returned
crossed path equals the sum, over the log rows stored for the canonical key
of the pair, of `cross_count` with a null or zero `cross_count` counted as
1 — except that a pair with zero log rows defaults to 1. -/
theorem C1_aggregation_total (profiles : List Profile) (log : List LogRow)
    (p : Profile) (row : SummaryRow) (u1 u2 : Profile)
    (h1 : lookupProfile profiles row.user1_id = some u1)
    (h2 : lookupProfile profiles row.user2_id = some u2) :
    (∀ path, enrichRow1 profiles log p row = some path →
      path.total_crosses =
        (let k := canonPair p.user_id
            (if row.user1_id = p.id then u2.user_id else u1.user_id)
         let rows := logRowsFor log k.1 k.2
         if rows = [] then 1
         else (rows.map (fun l => jsOrNat l.cross_count 1)).sum)) ∧
    (∀ path, enrichRow2 profiles log p row = some path →
      path.total_crosses =
        (let k := canonPair p.user_id
            (if row.user1_id = p.user_id then u2.user_id else u1.user_id)
         let rows := logRowsFor log k.1 k.2
         if rows = [] then 1
         else (rows.map (fun l => jsOrNat l.cross_count 1)).sum)) := by
  constructor
  · intro path hp
    rw [enrichRow1_eq profiles log p row u1 u2 h1 h2, Option.some_inj] at hp
    rw [← hp]
    show totalCrossesOf (some (logRowsFor log _ _)) = _
    rw [totalCrossesOf_eq_sum]
  · intro path hp
    rw [enrichRow2_eq profiles log p row u1 u2 h1 h2, Option.some_inj] at hp
    rw [← hp]
    show totalCrossesOf (some (logRowsFor log _ _)) = _
    rw [totalCrossesOf_eq_sum]

/-- Witness for C1 (amended) at a concrete database state. -/
theorem C1_witness :
    (⟨srowActive, profU2, 3, ["Joe"]⟩ : EnrichedPath).total_crosses =
      (let k := canonPair profU1.user_id
          (if srowActive.user1_id = profU1.id then profU2.user_id
           else profU1.user_id)
       let rows := logRowsFor [logJoe, logNull] k.1 k.2
       if rows = [] then 1
       else (rows.map (fun l => jsOrNat l.cross_count 1)).sum) :=
  (C1_aggregation_total [profU1, profU2] [logJoe, logNull] profU1 srowActive
      profU1 profU2 (by decide) (by decide)).1
    ⟨srowActive, profU2, 3, ["Joe"]⟩ (by decide)

/-- Claim C6: on both pages, `locations` of a returned crossed path is a
duplicate-free list whose members are exactly the non-empty (and non-null)
restaurant names over the log rows stored for the canonical key of the
pair. -/
theorem C6_locations_distinct (profiles : List Profile) (log : List LogRow)
    (p : Profile) (row : SummaryRow) (u1 u2 : Profile)
    (h1 : lookupProfile profiles row.user1_id = some u1)
    (h2 : lookupProfile profiles row.user2_id = some u2) :
    (∀ path, enrichRow1 profiles log p row = some path →
      path.locations.Nodup ∧
      ∀ s, s ∈ path.locations ↔
        (let k := canonPair p.user_id
            (if row.user1_id = p.id then u2.user_id else u1.user_id)
         (∃ l ∈ logRowsFor log k.1 k.2, l.restaurant_name = some s) ∧ s ≠ "")) ∧
    (∀ path, enrichRow2 profiles log p row = some path →
      path.locations.Nodup ∧
      ∀ s, s ∈ path.locations ↔
        (let k := canonPair p.user_id
            (if row.user1_id = p.user_id then u2.user_id else u1.user_id)
         (∃ l ∈ logRowsFor log k.1 k.2, l.restaurant_name = some s) ∧ s ≠ "")) := by
  constructor
  · intro path hp
    rw [enrichRow1_eq profiles log p row u1 u2 h1 h2, Option.some_inj] at hp
    rw [← hp]
    refine ⟨jsSetDedup_nodup _, fun s => ?_⟩
    show s ∈ jsSetDedup (locationsOf (logRowsFor log _ _)) ↔ _
    rw [mem_jsSetDedup, mem_locationsOf]
  · intro path hp
    rw [enrichRow2_eq profiles log p row u1 u2 h1 h2, Option.some_inj] at hp
    rw [← hp]
    refine ⟨jsSetDedup_nodup _, fun s => ?_⟩
    show s ∈ jsSetDedup (locationsOf (logRowsFor log _ _)) ↔ _
    rw [mem_jsSetDedup, mem_locationsOf]

/-- Witness for C6 at a concrete database state with a duplicate name and a
null name. -/
theorem C6_witness :
    (⟨srowActive, profU2, 4, ["Joe"]⟩ : EnrichedPath).locations.Nodup ∧
    ("Joe" ∈ (⟨srowActive, profU2, 4, ["Joe"]⟩ : EnrichedPath).locations ↔
      (let k := canonPair profU1.user_id
          (if srowActive.user1_id = profU1.id then profU2.user_id
           else profU1.user_id)
       (∃ l ∈ logRowsFor [logJoe, logNull, logJoe2] k.1 k.2,
          l.restaurant_name = some "Joe") ∧ "Joe" ≠ "")) :=
  have h := (C6_locations_distinct [profU1, profU2] [logJoe, logNull, logJoe2]
      profU1 srowActive profU1 profU2 (by decide) (by decide)).1
    ⟨srowActive, profU2, 4, ["Joe"]⟩ (by decide)
  ⟨h.1, h.2 "Joe"⟩

/-- Claim C2 is refuted by the code: the two pages select summary rows in
different identity spaces.  For a profile whose `id` differs from its
`user_id` (the normal situation, the columns referencing `profiles.user_id`
per the schema), the first page selects nothing while the second returns
the row, so the two implementations of `fetchCrossedPaths` are not
observationally equivalent. -/
theorem C2_identity_space_mismatch :
    fetchCrossedPaths1 [profSplit, profU2] [srowActive] [logJoe]
        (some profSplit) = [] ∧
    (fetchCrossedPaths2 [profSplit, profU2] [srowActive] [logJoe]
        (some profSplit)).map (fun path => path.summary.id) = [1] :=
  ⟨by decide, by decide⟩

/-! Lemmas for the second page's location_details aggregation. -/

theorem locationDetailsStep_none (acc : List LocationDetail) (log : LogRow)
    (h : log.restaurant_name = none) : locationDetailsStep acc log = acc := by
  unfold locationDetailsStep
  rw [h]

theorem locationDetailsStep_some (acc : List LocationDetail) (log : LogRow)
    (name : String) (h : log.restaurant_name = some name) :
    locationDetailsStep acc log =
      if name = "" then acc
      else if acc.any (fun d => d.name == name) then
        acc.map (fun d =>
          if d.name == name then
            { d with cross_count := d.cross_count + jsOrNat log.cross_count 1 }
          else d)
      else acc ++ [{ name := name, cross_count := jsOrNat log.cross_count 1 }] := by
  unfold locationDetailsStep
  rw [h]

theorem step_names_eq_of_any (name : String) (c : Nat) (acc : List LocationDetail) :
    ((acc.map (fun d =>
        if d.name == name then { d with cross_count := d.cross_count + c }
        else d)).map (fun d => d.name))
      = acc.map (fun d => d.name) := by
  rw [List.map_map]
  apply List.map_congr_left
  intro d _
  show (if d.name == name then
    ({ d with cross_count := d.cross_count + c } : LocationDetail) else d).name
      = d.name
  split <;> rfl

theorem step_names_nodup (log : LogRow) (acc : List LocationDetail)
    (h : (acc.map (fun d => d.name)).Nodup) :
    ((locationDetailsStep acc log).map (fun d => d.name)).Nodup := by
  cases hname : log.restaurant_name with
  | none => rw [locationDetailsStep_none acc log hname]; exact h
  | some name =>
      rw [locationDetailsStep_some acc log name hname]
      by_cases he : name = ""
      · rw [if_pos he]; exact h
      · rw [if_neg he]
        by_cases hmem : acc.any (fun d => d.name == name) = true
        · rw [if_pos hmem, step_names_eq_of_any]
          exact h
        · rw [if_neg hmem, List.map_append]
          have hnotin : name ∉ acc.map (fun d => d.name) := by
            intro hc
            rw [List.mem_map] at hc
            obtain ⟨d, hd, hdn⟩ := hc
            exact hmem (List.any_eq_true.mpr ⟨d, hd, beq_iff_eq.mpr hdn⟩)
          simp [List.nodup_append, h, hnotin]

theorem step_names_mem (log : LogRow) (acc : List LocationDetail) (x : String) :
    x ∈ (locationDetailsStep acc log).map (fun d => d.name)
      ↔ x ∈ acc.map (fun d => d.name)
        ∨ (log.restaurant_name = some x ∧ x ≠ "") := by
  cases hname : log.restaurant_name with
  | none => rw [locationDetailsStep_none acc log hname]; simp
  | some name =>
      rw [locationDetailsStep_some acc log name hname]
      by_cases he : name = ""
      · rw [if_pos he]
        subst he
        constructor
        · intro h; exact Or.inl h
        · rintro (h | ⟨hx, hne⟩)
          · exact h
          · rw [Option.some_inj] at hx
            exact absurd hx.symm hne
      · rw [if_neg he]
        by_cases hmem : acc.any (fun d => d.name == name) = true
        · rw [if_pos hmem, step_names_eq_of_any]
          constructor
          · intro h; exact Or.inl h
          · rintro (h | ⟨hx, _⟩)
            · exact h
            · rw [Option.some_inj] at hx
              subst hx
              rw [List.any_eq_true] at hmem
              obtain ⟨d, hd, hdx⟩ := hmem
              exact List.mem_map.mpr ⟨d, hd, beq_iff_eq.mp hdx⟩
        · rw [if_neg hmem, List.map_append]
          rw [List.mem_append]
          constructor
          · rintro (h | h)
            · exact Or.inl h
            · simp only [List.map_cons, List.map_nil, List.mem_singleton] at h
              subst h
              exact Or.inr ⟨rfl, he⟩
          · rintro (h | ⟨hx, _⟩)
            · exact Or.inl h
            · rw [Option.some_inj] at hx
              subst hx
              simp

theorem sum_upd_one (name : String) (c : Nat) :
    ∀ acc : List LocationDetail, (acc.map (fun d => d.name)).Nodup →
      acc.any (fun d => d.name == name) = true →
      ((acc.map (fun d =>
          if d.name == name then { d with cross_count := d.cross_count + c }
          else d)).map (fun d => d.cross_count)).sum
        = (acc.map (fun d => d.cross_count)).sum + c := by
  intro acc
  induction acc with
  | nil => intro _ h; simp at h
  | cons d ds ih =>
      intro hnd hany
      simp only [List.map_cons, List.sum_cons]
      by_cases hd : (d.name == name) = true
      · rw [if_pos hd]
        have hdn : d.name = name := beq_iff_eq.mp hd
        have hnot : ∀ e ∈ ds, ((e.name == name) = true) → False := by
          intro e he hbeq
          have : e.name = d.name := by rw [beq_iff_eq.mp hbeq, hdn]
          have hmem : d.name ∈ ds.map (fun d => d.name) :=
            List.mem_map.mpr ⟨e, he, this⟩
          exact (List.nodup_cons.mp (by simpa using hnd)).1 hmem
        have hmap : ds.map (fun e =>
            if e.name == name then
              ({ e with cross_count := e.cross_count + c } : LocationDetail)
            else e) = ds.map (fun e => e) := by
          apply List.map_congr_left
          intro e he
          have hb : (e.name == name) = false := by
            cases hbe : e.name == name with
            | false => rfl
            | true => exact (hnot e he hbe).elim
          rw [hb]
          simp
        rw [hmap, List.map_id_fun']
        show d.cross_count + c + (ds.map (fun d => d.cross_count)).sum = _
        omega
      · rw [if_neg hd]
        have hany' : ds.any (fun d => d.name == name) = true := by
          rw [List.any_cons] at hany
          rcases Bool.or_eq_true_iff.mp hany with h | h
          · exact absurd h hd
          · exact h
        have hnd' : (ds.map (fun d => d.name)).Nodup :=
          (List.nodup_cons.mp (by simpa using hnd)).2
        rw [ih hnd' hany']
        omega

theorem step_sum_named (log : LogRow) (acc : List LocationDetail) (name : String)
    (hnd : (acc.map (fun d => d.name)).Nodup)
    (h : log.restaurant_name = some name) (he : name ≠ "") :
    ((locationDetailsStep acc log).map (fun d => d.cross_count)).sum
      = (acc.map (fun d => d.cross_count)).sum + jsOrNat log.cross_count 1 := by
  rw [locationDetailsStep_some acc log name h, if_neg he]
  by_cases hmem : acc.any (fun d => d.name == name) = true
  · rw [if_pos hmem]
    exact sum_upd_one name (jsOrNat log.cross_count 1) acc hnd hmem
  · rw [if_neg hmem, List.map_append]
    simp

theorem fold_sum_named (rows : List LogRow) :
    ∀ acc : List LocationDetail, (acc.map (fun d => d.name)).Nodup →
      (∀ l ∈ rows, l.restaurant_name ≠ none ∧ l.restaurant_name ≠ some "") →
      ((rows.foldl locationDetailsStep acc).map (fun d => d.cross_count)).sum
        = (acc.map (fun d => d.cross_count)).sum
          + (rows.map (fun l => jsOrNat l.cross_count 1)).sum := by
  induction rows with
  | nil => intro acc _ _; simp
  | cons l ls ih =>
      intro acc hnd hall
      simp only [List.foldl_cons, List.map_cons, List.sum_cons]
      obtain ⟨hn, hse⟩ := hall l (List.mem_cons_self l ls)
      cases hname : l.restaurant_name with
      | none => exact absurd hname hn
      | some name =>
          have hne : name ≠ "" := by
            intro hcon
            rw [hcon] at hname
            exact hse hname
          rw [ih (locationDetailsStep acc l) (step_names_nodup l acc hnd)
            (fun e hee => hall e (List.mem_cons_of_mem l hee))]
          rw [step_sum_named l acc name hnd hname hne]
          omega

theorem fold_names_nodup (rows : List LogRow) :
    ∀ acc : List LocationDetail, (acc.map (fun d => d.name)).Nodup →
      ((rows.foldl locationDetailsStep acc).map (fun d => d.name)).Nodup := by
  induction rows with
  | nil => intro acc h; exact h
  | cons l ls ih =>
      intro acc h
      simp only [List.foldl_cons]
      exact ih _ (step_names_nodup l acc h)

theorem fold_names_mem (rows : List LogRow) (x : String) :
    ∀ acc : List LocationDetail,
      (x ∈ (rows.foldl locationDetailsStep acc).map (fun d => d.name)
        ↔ x ∈ acc.map (fun d => d.name)
          ∨ ∃ l ∈ rows, l.restaurant_name = some x ∧ x ≠ "") := by
  induction rows with
  | nil => intro acc; simp
  | cons l ls ih =>
      intro acc
      simp only [List.foldl_cons]
      rw [ih (locationDetailsStep acc l), step_names_mem]
      rw [List.exists_mem_cons_iff]
      tauto

theorem locationDetailsOf_names_nodup (rows : List LogRow) :
    ((locationDetailsOf rows).map (fun d => d.name)).Nodup :=
  fold_names_nodup rows [] (by simp)

theorem mem_locationDetailsOf_names (rows : List LogRow) (x : String) :
    x ∈ (locationDetailsOf rows).map (fun d => d.name)
      ↔ ∃ l ∈ rows, l.restaurant_name = some x ∧ x ≠ "" := by
  unfold locationDetailsOf
  rw [fold_names_mem]
  simp

theorem locationDetailsOf_sum (rows : List LogRow)
    (hall : ∀ l ∈ rows, l.restaurant_name ≠ none ∧ l.restaurant_name ≠ some "") :
    ((locationDetailsOf rows).map (fun d => d.cross_count)).sum
      = (rows.map (fun l => jsOrNat l.cross_count 1)).sum := by
  unfold locationDetailsOf
  rw [fold_sum_named rows [] (by simp) hall]
  simp

/-- Claim C10 (amended): on the second page, for a returned crossed path
whose pair has at least one log row and all of whose log rows carry a
non-empty restaurant name, `location_details` is consistent with the other
derived fields: its counts sum to `total_crosses`, each restaurant name
appears exactly once, and its name set equals the `locations` set.  (With
zero log rows the two derivations disagree: `total_crosses` defaults to 1
while `location_details` is empty.) -/
theorem C10_location_details_consistent (profiles : List Profile)
    (log : List LogRow) (p : Profile) (row : SummaryRow) (u1 u2 : Profile)
    (h1 : lookupProfile profiles row.user1_id = some u1)
    (h2 : lookupProfile profiles row.user2_id = some u2) :
    ∀ path, enrichRow2 profiles log p row = some path →
      (let k := canonPair p.user_id
          (if row.user1_id = p.user_id then u2.user_id else u1.user_id)
       let rows := logRowsFor log k.1 k.2
       (∀ l ∈ rows, l.restaurant_name ≠ none ∧ l.restaurant_name ≠ some "") →
       rows ≠ [] →
       ((path.location_details.map (fun d => d.cross_count)).sum
            = path.total_crosses ∧
        (path.location_details.map (fun d => d.name)).Nodup ∧
        ∀ x, x ∈ path.location_details.map (fun d => d.name)
          ↔ x ∈ path.locations)) := by
  intro path hp
  intro k rows hall hne
  rw [enrichRow2_eq profiles log p row u1 u2 h1 h2, Option.some_inj] at hp
  rw [← hp]
  refine ⟨?_, ?_, ?_⟩
  · show ((locationDetailsOf (logRowsFor log _ _)).map
        (fun d => d.cross_count)).sum = totalCrossesOf (some (logRowsFor log _ _))
    rw [totalCrossesOf_eq_sum, if_neg hne]
    exact locationDetailsOf_sum _ hall
  · exact locationDetailsOf_names_nodup _
  · intro x
    show x ∈ (locationDetailsOf (logRowsFor log _ _)).map (fun d => d.name)
      ↔ x ∈ jsSetDedup (locationsOf (logRowsFor log _ _))
    rw [mem_locationDetailsOf_names, mem_jsSetDedup, mem_locationsOf]
    tauto

/-- Counterexample for C10 as stated: with zero log rows (all of which
vacuously carry a non-empty name) the second page returns a path whose
`location_details` counts sum to 0 while `total_crosses` is 1. -/
theorem C10_counterexample :
    (fetchCrossedPaths2 [profU1, profU2] [srowActive] [] (some profU1)).map
        (fun path => ((path.location_details.map (fun d => d.cross_count)).sum,
          path.total_crosses)) = [(0, 1)] := by decide

/-- Witness for C10 (amended) at a concrete database state with a repeated
restaurant, a null count and a zero count. -/
theorem C10_witness :
    ((⟨srowActive, profU2, 4, ["Joe", "Cafe"],
        [⟨"Joe", 3⟩, ⟨"Cafe", 1⟩]⟩ : EnrichedPath2).location_details.map
          (fun d => d.cross_count)).sum
      = (⟨srowActive, profU2, 4, ["Joe", "Cafe"],
          [⟨"Joe", 3⟩, ⟨"Cafe", 1⟩]⟩ : EnrichedPath2).total_crosses ∧
    ((⟨srowActive, profU2, 4, ["Joe", "Cafe"],
        [⟨"Joe", 3⟩, ⟨"Cafe", 1⟩]⟩ : EnrichedPath2).location_details.map
          (fun d => d.name)).Nodup :=
  have h := C10_location_details_consistent [profU1, profU2]
      [logJoe, logCafe, logJoe2] profU1 srowActive profU1 profU2
      (by decide) (by decide)
      ⟨srowActive, profU2, 4, ["Joe", "Cafe"], [⟨"Joe", 3⟩, ⟨"Cafe", 1⟩]⟩
      (by decide) (by decide) (by decide)
  ⟨h.1, h.2.1⟩

end ParisHus
